import Mathlib

/-!
Verification of the PueueWrapper Python library's core algorithms as a
shallow Lean embedding: task-result classification, group statistics and
rates, duration histograms and percentiles, CLI argument construction for
the pueue binary, and the error-handling envelope of control operations.

Python floats are modelled by exact rationals, Python ints by Int/Nat,
Python dicts by insertion-ordered association lists, and the external
command runner by an explicit function from an argument vector to either
stdout text or an exception message.
-/

/-- A Python value appearing in a task's `result` field: `None`, a string,
a dict (modelled by its list of keys, the only aspect the code inspects),
or any other shape. -/
inductive PyResult where
  | none
  | str (s : String)
  | dict (keys : List String)
  | other
  deriving DecidableEq

/-- `StatisticsMixin._is_task_successful` from
`src/pueue_wrapper/extensions/statistics.py` (lines 211-229). -/
def is_task_successful : PyResult → Bool
  | PyResult.none => false
  | PyResult.str s => s == "Success"
  | PyResult.dict keys => !(keys.contains "Failed")
  | PyResult.other => false

/-- `PueueStatus._is_task_failed` from `src/pueue_wrapper/models/status.py`
(lines 79-89). -/
def is_task_failed : PyResult → Bool
  | PyResult.none => true
  | PyResult.str s => s != "Success"
  | PyResult.dict keys => keys.contains "Failed"
  | PyResult.other => true

/-- The `Done` branch of `get_group_statistics` (statistics.py lines 46-56):
a Done task counts as completed (successful) when its `result` attribute is
non-None and `_is_task_successful` holds, or when the result is None/absent
("If no result information, assume success").  `hasattr` is always true on
the pydantic model, so only the None check remains. -/
def doneCountedSuccessful (result : PyResult) : Bool :=
  if result ≠ PyResult.none then is_task_successful result else true

/-- `GroupStatistics` from `src/pueue_wrapper/models/base.py` (lines 71-103).
Counters are Python non-negative ints; rates are floats, modelled by ℚ. -/
structure GroupStatistics where
  group_name : String
  total_tasks : Nat := 0
  running_tasks : Nat := 0
  queued_tasks : Nat := 0
  completed_tasks : Nat := 0
  failed_tasks : Nat := 0
  paused_tasks : Nat := 0
  stashed_tasks : Nat := 0
  completion_rate : ℚ := 0
  success_rate : ℚ := 0
  failure_rate : ℚ := 0
  deriving DecidableEq

/-- `GroupStatistics.calculate_rates` (base.py lines 92-102): mutates the
rate fields in place; modelled as returning the updated record. -/
def calculate_rates (s : GroupStatistics) : GroupStatistics :=
  if s.total_tasks > 0 then
    if s.completed_tasks + s.failed_tasks > 0 then
      { s with
          completion_rate :=
            ((s.completed_tasks : ℚ) + s.failed_tasks) / s.total_tasks * 100,
          success_rate :=
            (s.completed_tasks : ℚ) / ((s.completed_tasks + s.failed_tasks : Nat) : ℚ) * 100,
          failure_rate :=
            (s.failed_tasks : ℚ) / ((s.completed_tasks + s.failed_tasks : Nat) : ℚ) * 100 }
    else
      { s with
          completion_rate :=
            ((s.completed_tasks : ℚ) + s.failed_tasks) / s.total_tasks * 100 }
  else
    s

/-- One loop iteration of `get_group_statistics` (statistics.py lines 31-56).
A task is abstracted to the pair of its single active status key (the first
key of `task.status`) and its `result` payload, the only data the loop
reads. -/
def count_task (s : GroupStatistics) (t : String × PyResult) : GroupStatistics :=
  let s := { s with total_tasks := s.total_tasks + 1 }
  if t.1 = "Running" then { s with running_tasks := s.running_tasks + 1 }
  else if t.1 = "Queued" then { s with queued_tasks := s.queued_tasks + 1 }
  else if t.1 = "Paused" then { s with paused_tasks := s.paused_tasks + 1 }
  else if t.1 = "Stashed" then { s with stashed_tasks := s.stashed_tasks + 1 }
  else if t.1 = "Done" then
    if t.2 ≠ PyResult.none then
      if is_task_successful t.2 then { s with completed_tasks := s.completed_tasks + 1 }
      else { s with failed_tasks := s.failed_tasks + 1 }
    else { s with completed_tasks := s.completed_tasks + 1 }
  else s

/-- `get_group_statistics` (statistics.py lines 15-61) restricted to its pure
aggregation: fold the counting loop over the fetched tasks, then compute
rates. -/
def get_group_statistics (group_name : String) (tasks : List (String × PyResult)) :
    GroupStatistics :=
  calculate_rates (tasks.foldl count_task { group_name := group_name })

/-- C10: for every result shape (None, any string, any dict, any other
value), `StatisticsMixin._is_task_successful` returns the exact boolean
negation of `PueueStatus._is_task_failed`. -/
theorem C10_classifiers_exact_negation (r : PyResult) :
    is_task_successful r = !(is_task_failed r) := by
  cases r <;> simp [is_task_successful, is_task_failed, bne]

/-- C1 counterexample: the claim says a Done task with an absent/None
result is counted as failed, but the code (statistics.py lines 54-56)
counts it as completed ("If no result information, assume success"), and
None is not the string "Success". -/
theorem C1_counterexample :
    doneCountedSuccessful PyResult.none = true ∧
      PyResult.none ≠ PyResult.str "Success" := by
  exact ⟨rfl, by decide⟩

/-- C1 (amended): in `get_group_statistics`, a Done task increments the
completed (successful) counter iff its result payload is None/absent, the
exact string "Success", or a dict without the key "Failed"; any other
payload increments the failed counter. -/
theorem C1_done_classification (s : GroupStatistics) (r : PyResult) :
    ((count_task s ("Done", r)).completed_tasks = s.completed_tasks + 1 ↔
      (r = PyResult.none ∨ r = PyResult.str "Success" ∨
        ∃ keys, r = PyResult.dict keys ∧ "Failed" ∉ keys)) ∧
    ((count_task s ("Done", r)).failed_tasks = s.failed_tasks + 1 ↔
      ¬(r = PyResult.none ∨ r = PyResult.str "Success" ∨
        ∃ keys, r = PyResult.dict keys ∧ "Failed" ∉ keys)) := by
  cases r <;>
    simp [count_task, is_task_successful, List.elem_iff] <;>
    split_ifs <;> simp_all

/-- C8: after `calculate_rates`, the three rates are within [0, 100]
(given the counting invariant that finished tasks do not exceed total
tasks, which `get_group_statistics` guarantees, and starting from the
model's zero defaults), and each rate stays 0 when its denominator is 0,
so an empty or all-queued group never divides by zero. -/
theorem C8_rates_bounded (s : GroupStatistics)
    (hcount : s.completed_tasks + s.failed_tasks ≤ s.total_tasks)
    (hc : s.completion_rate = 0) (hs : s.success_rate = 0)
    (hf : s.failure_rate = 0) :
    (0 ≤ (calculate_rates s).completion_rate ∧
      (calculate_rates s).completion_rate ≤ 100) ∧
    (0 ≤ (calculate_rates s).success_rate ∧
      (calculate_rates s).success_rate ≤ 100) ∧
    (0 ≤ (calculate_rates s).failure_rate ∧
      (calculate_rates s).failure_rate ≤ 100) ∧
    (s.total_tasks = 0 → (calculate_rates s).completion_rate = 0) ∧
    (s.completed_tasks + s.failed_tasks = 0 →
      (calculate_rates s).success_rate = 0 ∧
        (calculate_rates s).failure_rate = 0) := by
  rcases Nat.eq_zero_or_pos s.total_tasks with h0 | ht
  · have heq : calculate_rates s = s := by
      unfold calculate_rates
      rw [if_neg (by omega)]
    rw [heq, hc, hs, hf]
    refine ⟨⟨le_refl 0, by norm_num⟩, ⟨le_refl 0, by norm_num⟩,
      ⟨le_refl 0, by norm_num⟩, fun _ => rfl, fun _ => ⟨rfl, rfl⟩⟩
  · have ht' : (0 : ℚ) < (s.total_tasks : ℚ) := by exact_mod_cast ht
    rcases Nat.eq_zero_or_pos (s.completed_tasks + s.failed_tasks) with hfin0 | hfin
    · have heq : calculate_rates s =
        { s with completion_rate :=
            ((s.completed_tasks : ℚ) + s.failed_tasks) / s.total_tasks * 100 } := by
        unfold calculate_rates
        rw [if_pos ht, if_neg (by omega)]
      have hc0 : s.completed_tasks = 0 := by omega
      have hf0 : s.failed_tasks = 0 := by omega
      rw [heq]
      dsimp only
      rw [hc0, hf0, hs, hf]
      refine ⟨⟨by positivity, by norm_num⟩, ⟨le_refl 0, by norm_num⟩,
        ⟨le_refl 0, by norm_num⟩, fun _ => by norm_num, fun _ => ⟨rfl, rfl⟩⟩
    · have hfin' : (0 : ℚ) < ((s.completed_tasks + s.failed_tasks : Nat) : ℚ) := by
        exact_mod_cast hfin
      have heq : calculate_rates s =
        { s with
            completion_rate :=
              ((s.completed_tasks : ℚ) + s.failed_tasks) / s.total_tasks * 100,
            success_rate :=
              (s.completed_tasks : ℚ) / ((s.completed_tasks + s.failed_tasks : Nat) : ℚ) * 100,
            failure_rate :=
              (s.failed_tasks : ℚ) / ((s.completed_tasks + s.failed_tasks : Nat) : ℚ) * 100 } := by
        unfold calculate_rates
        rw [if_pos ht, if_pos hfin]
      rw [heq]
      dsimp only
      have h1 : ((s.completed_tasks : ℚ) + s.failed_tasks) / s.total_tasks ≤ 1 := by
        rw [div_le_one ht']
        exact_mod_cast hcount
      have h2 : (s.completed_tasks : ℚ) / ((s.completed_tasks + s.failed_tasks : Nat) : ℚ) ≤ 1 := by
        rw [div_le_one hfin']
        exact_mod_cast Nat.le_add_right s.completed_tasks s.failed_tasks
      have h3 : (s.failed_tasks : ℚ) / ((s.completed_tasks + s.failed_tasks : Nat) : ℚ) ≤ 1 := by
        rw [div_le_one hfin']
        exact_mod_cast Nat.le_add_left s.failed_tasks s.completed_tasks
      refine ⟨⟨by positivity, by linarith⟩, ⟨by positivity, by linarith⟩,
        ⟨by positivity, by linarith⟩,
        fun h => absurd h (by omega), fun h => absurd h (by omega)⟩

/-- A concrete statistics record used to witness `C8_rates_bounded`. -/
def sampleStats : GroupStatistics :=
  { group_name := "g", total_tasks := 2, completed_tasks := 1, failed_tasks := 1 }

/-- Witness for C8 at a concrete record (2 tasks, 1 completed, 1 failed). -/
theorem C8_witness :
    (0 ≤ (calculate_rates sampleStats).completion_rate ∧
      (calculate_rates sampleStats).completion_rate ≤ 100) ∧
    (0 ≤ (calculate_rates sampleStats).success_rate ∧
      (calculate_rates sampleStats).success_rate ≤ 100) ∧
    (0 ≤ (calculate_rates sampleStats).failure_rate ∧
      (calculate_rates sampleStats).failure_rate ≤ 100) ∧
    (sampleStats.total_tasks = 0 → (calculate_rates sampleStats).completion_rate = 0) ∧
    (sampleStats.completed_tasks + sampleStats.failed_tasks = 0 →
      (calculate_rates sampleStats).success_rate = 0 ∧
        (calculate_rates sampleStats).failure_rate = 0) :=
  C8_rates_bounded sampleStats (by decide) rfl rfl rfl

/-- Result envelope `TaskControl` from `src/pueue_wrapper/models/base.py`
(lines 63-68). -/
structure TaskControl where
  success : Bool
  message : Option String := Option.none
  task_ids : Option (List Int) := Option.none
  deriving DecidableEq

/-- The command runner `_run_pueue_command` (async_core.py lines 23-42),
abstracted as a function from the argument vector to either the captured
stdout (`Except.ok`) or the message of the raised exception
(`Except.error`; the `str(e)` that each caller's handler stores). -/
abbrev Runner := List String → Except String String

/-- Python truthiness of an optional string (`if group:`): None and the
empty string are falsy. -/
def optTruthy : Option String → Bool
  | Option.none => false
  | Option.some s => !(s == "")

/-- Python truthiness of an optional list (`if groups:`): None and the
empty list are falsy. -/
def optListTruthy : Option (List String) → Bool
  | Option.none => false
  | Option.some l => !l.isEmpty

/-- Python string interpolation of an `Optional[str]` (None renders as
"None"). -/
def pyStrOfOptStr : Option String → String
  | Option.none => "None"
  | Option.some s => s

/-- `remove_task` (async_core.py lines 126-145).  The `Union[int, List[int]]`
input is modelled by the list form (a single int is first wrapped into a
one-element list by the code). -/
def remove_task (run : Runner) (task_ids : List Int) :
    TaskControl × List (List String) :=
  let args := "remove" :: task_ids.map toString
  match run args with
  | Except.ok _ =>
      ({ success := true,
         message := Option.some ("Removed tasks: " ++ toString task_ids),
         task_ids := Option.some task_ids }, [args])
  | Except.error e => ({ success := false, message := Option.some e }, [args])

/-- `kill_task` (async_core.py lines 147-179). -/
def kill_task (run : Runner) (task_ids : List Int) (group : Option String) :
    TaskControl × List (List String) :=
  let args :=
    if optTruthy group then ["kill", "--group", group.getD ""]
    else "kill" :: task_ids.map toString
  match run args with
  | Except.ok _ =>
      ({ success := true,
         message := Option.some
           (if optTruthy group then
              "Killed all tasks in group \x27" ++ group.getD "" ++ "\x27"
            else "Killed tasks: " ++ toString task_ids),
         task_ids :=
           if optTruthy group then Option.none else Option.some task_ids }, [args])
  | Except.error e => ({ success := false, message := Option.some e }, [args])

/-- `pause_task` (async_core.py lines 181-213). -/
def pause_task (run : Runner) (task_ids : List Int) (group : Option String) :
    TaskControl × List (List String) :=
  let args :=
    if optTruthy group then ["pause", "--group", group.getD ""]
    else "pause" :: task_ids.map toString
  match run args with
  | Except.ok _ =>
      ({ success := true,
         message := Option.some
           (if optTruthy group then
              "Paused group \x27" ++ group.getD "" ++ "\x27"
            else "Paused tasks: " ++ toString task_ids),
         task_ids :=
           if optTruthy group then Option.none else Option.some task_ids }, [args])
  | Except.error e => ({ success := false, message := Option.some e }, [args])

/-- `start_task` (async_core.py lines 215-247). -/
def start_task (run : Runner) (task_ids : List Int) (group : Option String) :
    TaskControl × List (List String) :=
  let args :=
    if optTruthy group then ["start", "--group", group.getD ""]
    else "start" :: task_ids.map toString
  match run args with
  | Except.ok _ =>
      ({ success := true,
         message := Option.some
           (if optTruthy group then
              "Started group \x27" ++ group.getD "" ++ "\x27"
            else "Started tasks: " ++ toString task_ids),
         task_ids :=
           if optTruthy group then Option.none else Option.some task_ids }, [args])
  | Except.error e => ({ success := false, message := Option.some e }, [args])

/-- `restart_task` (async_core.py lines 249-274). -/
def restart_task (run : Runner) (task_ids : List Int) (in_place : Bool) :
    TaskControl × List (List String) :=
  let args := ("restart" :: (if in_place then ["--in-place"] else [])) ++
    task_ids.map toString
  match run args with
  | Except.ok _ =>
      ({ success := true,
         message := Option.some ("Restarted tasks: " ++ toString task_ids),
         task_ids := Option.some task_ids }, [args])
  | Except.error e => ({ success := false, message := Option.some e }, [args])

/-- `clean_tasks` (async_core.py lines 276-298). -/
def clean_tasks (run : Runner) (group : Option String) :
    TaskControl × List (List String) :=
  let args :=
    if optTruthy group then ["clean", "--group", group.getD ""] else ["clean"]
  match run args with
  | Except.ok _ =>
      ({ success := true,
         message := Option.some
           (if optTruthy group then
              "Cleaned tasks in group \x27" ++ group.getD "" ++ "\x27"
            else "Cleaned all finished tasks") }, [args])
  | Except.error e => ({ success := false, message := Option.some e }, [args])

/-- `reset_queue` (async_core.py lines 300-325).  The success message
interpolates the Python list repr; `toString` stands in for it (the
message content of the success branch is not asserted by any theorem). -/
def reset_queue (run : Runner) (groups : Option (List String)) (force : Bool) :
    TaskControl × List (List String) :=
  let args := ["reset"] ++ (if force then ["--force"] else []) ++
    (if optListTruthy groups then
      ["--groups", String.intercalate "," (groups.getD [])] else [])
  match run args with
  | Except.ok _ =>
      ({ success := true,
         message := Option.some
           (if optListTruthy groups then
              "Reset queue for groups: " ++ toString (groups.getD [])
            else "Reset entire queue") }, [args])
  | Except.error e => ({ success := false, message := Option.some e }, [args])

/-- `add_group` (async_core.py lines 450-466). -/
def add_group (run : Runner) (group_name : String) :
    TaskControl × List (List String) :=
  let args := ["group", "add", group_name]
  match run args with
  | Except.ok _ =>
      ({ success := true,
         message := Option.some
           ("Group \x27" ++ group_name ++ "\x27 created successfully") }, [args])
  | Except.error e => ({ success := false, message := Option.some e }, [args])

/-- `set_group_parallel` (async_core.py lines 502-526). -/
def set_group_parallel (run : Runner) (parallel_tasks : Int)
    (group : Option String) : TaskControl × List (List String) :=
  let args := ["parallel", toString parallel_tasks] ++
    (if optTruthy group then ["--group", group.getD ""] else [])
  match run args with
  | Except.ok _ =>
      ({ success := true,
         message := Option.some
           ("Set parallel tasks to " ++ toString parallel_tasks ++
            " for group \x27" ++
            (if optTruthy group then group.getD "" else "default") ++ "\x27") },
       [args])
  | Except.error e => ({ success := false, message := Option.some e }, [args])

/-- `remove_group` (async_core.py lines 468-500): with `force_clean` it
first calls `clean_tasks` on the group and aborts with a wrapping failure
message if that fails; only then runs `pueue group remove`. -/
def remove_group (run : Runner) (group_name : String) (force_clean : Bool) :
    TaskControl × List (List String) :=
  if force_clean then
    let cleanRes := clean_tasks run (Option.some group_name)
    if !cleanRes.1.success then
      ({ success := false,
         message := Option.some ("Failed to clean tasks in group \x27" ++
           group_name ++ "\x27: " ++ pyStrOfOptStr cleanRes.1.message) },
       cleanRes.2)
    else
      match run ["group", "remove", group_name] with
      | Except.ok _ =>
          ({ success := true,
             message := Option.some ("Group \x27" ++ group_name ++
               "\x27 removed successfully (tasks were cleaned first)") },
           cleanRes.2 ++ [["group", "remove", group_name]])
      | Except.error e =>
          ({ success := false, message := Option.some e },
           cleanRes.2 ++ [["group", "remove", group_name]])
  else
    match run ["group", "remove", group_name] with
    | Except.ok _ =>
        ({ success := true,
           message := Option.some
             ("Group \x27" ++ group_name ++ "\x27 removed successfully") },
         [["group", "remove", group_name]])
    | Except.error e =>
        ({ success := false, message := Option.some e },
         [["group", "remove", group_name]])

/-- C2 (behaviour at the failing input): `kill_task([], group=None)` is not
validated: for every runner the call invokes the external binary with the
bare argument vector ["kill"] (no task target), and if the binary exits 0
the call even reports success — it never fails fast with an
invalid-argument error. -/
theorem C2_kill_empty_invokes_binary (run : Runner) :
    (kill_task run [] Option.none).2 = [["kill"]] ∧
    (∀ o, run ["kill"] = Except.ok o →
      (kill_task run [] Option.none).1.success = true) := by
  constructor
  · cases h : run ["kill"] <;> simp [kill_task, optTruthy, h]
  · intro o h
    simp [kill_task, optTruthy, h]

/-- A runner on which every command succeeds, used to witness C2. -/
def okRunner : Runner := fun _ => Except.ok ""

/-- Witness for C2: with a succeeding binary, `kill_task([], None)` invokes
["kill"] and reports success instead of failing fast. -/
theorem C2_witness :
    (kill_task okRunner [] Option.none).1.success = true ∧
      (kill_task okRunner [] Option.none).2 = [["kill"]] :=
  ⟨(C2_kill_empty_invokes_binary okRunner).2 "" rfl,
   (C2_kill_empty_invokes_binary okRunner).1⟩

/-- C6: with `force_clean` (the default), `remove_group` is a two-step
transaction: if the clean step fails, the overall result is a failure
whose message wraps the clean failure's message and the group-remove
command is never invoked; conversely the group-remove command is invoked
only after the clean command succeeded. -/
theorem C6_remove_group_two_step (run : Runner) (g : String) (hg : g ≠ "") :
    (∀ e, run ["clean", "--group", g] = Except.error e →
      (remove_group run g true).1.success = false ∧
      (remove_group run g true).1.message =
        Option.some ("Failed to clean tasks in group \x27" ++ g ++ "\x27: " ++ e) ∧
      ["group", "remove", g] ∉ (remove_group run g true).2) ∧
    (["group", "remove", g] ∈ (remove_group run g true).2 →
      ∃ o, run ["clean", "--group", g] = Except.ok o) := by
  have hopt : optTruthy (Option.some g) = true := by
    simp [optTruthy, hg]
  constructor
  · intro e he
    refine ⟨?_, ?_, ?_⟩ <;>
      simp [remove_group, clean_tasks, hopt, he, pyStrOfOptStr]
  · intro hmem
    cases hclean : run ["clean", "--group", g] with
    | ok o => exact ⟨o, rfl⟩
    | error e =>
      exfalso
      simp [remove_group, clean_tasks, hopt, hclean] at hmem

/-- A runner whose clean command fails, used to witness C6. -/
def cleanFailRunner : Runner := fun a =>
  if a = ["clean", "--group", "g1"] then Except.error "boom" else Except.ok ""

/-- Witness for C6: with a failing clean step, `remove_group "g1"` fails
with the wrapping message and never invokes the group-remove command. -/
theorem C6_witness :
    (remove_group cleanFailRunner "g1" true).1.success = false ∧
      (remove_group cleanFailRunner "g1" true).1.message =
        Option.some "Failed to clean tasks in group \x27g1\x27: boom" ∧
      ["group", "remove", "g1"] ∉ (remove_group cleanFailRunner "g1" true).2 :=
  (C6_remove_group_two_step cleanFailRunner "g1" (by decide)).1 "boom" rfl

/-- The success/failure envelope of a control operation that issues the
single command `A`: a runner fault is caught and returned as
`success=false` carrying exactly the fault's message (and no task-id
list), and a runner success yields `success=true`. -/
def envelopeOn (run : Runner) (A : List String) (r : TaskControl) : Prop :=
  (∀ e, run A = Except.error e →
    r = { success := false, message := Option.some e }) ∧
  (∀ o, run A = Except.ok o → r.success = true)

/-- C7: every control operation catches the runner's faults internally and
returns a `TaskControl` envelope instead of raising: on a fault it returns
`success=false` with the fault's message (for `remove_group`, a message
wrapping it), and on success it returns `success=true`.  `remove_group`
additionally reports success only if its group-remove command succeeded. -/
theorem C7_control_ops_envelope (run : Runner) (ids : List Int)
    (og : Option String) (ogs : Option (List String))
    (inPlace force fc : Bool) (n : Int) (g : String) :
    envelopeOn run ("remove" :: ids.map toString) (remove_task run ids).1 ∧
    envelopeOn run
      (if optTruthy og then ["kill", "--group", og.getD ""]
       else "kill" :: ids.map toString) (kill_task run ids og).1 ∧
    envelopeOn run
      (if optTruthy og then ["pause", "--group", og.getD ""]
       else "pause" :: ids.map toString) (pause_task run ids og).1 ∧
    envelopeOn run
      (if optTruthy og then ["start", "--group", og.getD ""]
       else "start" :: ids.map toString) (start_task run ids og).1 ∧
    envelopeOn run
      (("restart" :: (if inPlace then ["--in-place"] else [])) ++ ids.map toString)
      (restart_task run ids inPlace).1 ∧
    envelopeOn run
      (if optTruthy og then ["clean", "--group", og.getD ""] else ["clean"])
      (clean_tasks run og).1 ∧
    envelopeOn run
      (["reset"] ++ (if force then ["--force"] else []) ++
        (if optListTruthy ogs then
          ["--groups", String.intercalate "," (ogs.getD [])] else []))
      (reset_queue run ogs force).1 ∧
    envelopeOn run ["group", "add", g] (add_group run g).1 ∧
    envelopeOn run
      (["parallel", toString n] ++
        (if optTruthy og then ["--group", og.getD ""] else []))
      (set_group_parallel run n og).1 ∧
    ((remove_group run g fc).1.success = false →
      ∃ m, (remove_group run g fc).1.message = Option.some m) ∧
    ((remove_group run g fc).1.success = true →
      ∃ o, run ["group", "remove", g] = Except.ok o) := by
  have hrg1 : (remove_group run g fc).1.success = false →
      ∃ m, (remove_group run g fc).1.message = Option.some m := by
    unfold remove_group
    cases fc <;>
      simp only [Bool.false_eq_true, eq_self_iff_true, if_false, if_true]
    · cases hrm : run ["group", "remove", g] <;> simp
    · unfold clean_tasks
      cases hopt : optTruthy (Option.some g) <;>
        simp only [Bool.false_eq_true, eq_self_iff_true, if_false, if_true]
      · cases hclean : run ["clean"] <;>
          cases hrm : run ["group", "remove", g] <;>
            simp [pyStrOfOptStr]
      · cases hclean : run ["clean", "--group", (Option.some g).getD ""] <;>
          cases hrm : run ["group", "remove", g] <;>
            simp [pyStrOfOptStr]
  have hrg2 : (remove_group run g fc).1.success = true →
      ∃ o, run ["group", "remove", g] = Except.ok o := by
    unfold remove_group
    cases fc <;>
      simp only [Bool.false_eq_true, eq_self_iff_true, if_false, if_true]
    · cases hrm : run ["group", "remove", g] <;> simp
    · unfold clean_tasks
      cases hopt : optTruthy (Option.some g) <;>
        simp only [Bool.false_eq_true, eq_self_iff_true, if_false, if_true]
      · cases hclean : run ["clean"] <;>
          cases hrm : run ["group", "remove", g] <;>
            simp [pyStrOfOptStr]
      · cases hclean : run ["clean", "--group", (Option.some g).getD ""] <;>
          cases hrm : run ["group", "remove", g] <;>
            simp [pyStrOfOptStr]
  refine ⟨⟨?_, ?_⟩, ⟨?_, ?_⟩, ⟨?_, ?_⟩, ⟨?_, ?_⟩, ⟨?_, ?_⟩, ⟨?_, ?_⟩,
    ⟨?_, ?_⟩, ⟨?_, ?_⟩, ⟨?_, ?_⟩, hrg1, hrg2⟩ <;>
    intro x hx <;>
    simp only [remove_task, kill_task, pause_task, start_task, restart_task,
      clean_tasks, reset_queue, add_group, set_group_parallel, hx]

/-- A runner on which every command fails with message "X", used to
witness C7. -/
def errRunner : Runner := fun _ => Except.error "X"

/-- Witness for C7: on an always-failing runner, `remove_task` returns the
failure envelope (success=false with the fault's message) rather than
raising. -/
theorem C7_witness :
    (remove_task errRunner [1]).1 =
      { success := false, message := Option.some "X" } :=
  (C7_control_ops_envelope errRunner [1] Option.none Option.none
    false false false 0 "g").1.1 "X" rfl

/-- Python-dict lookup on an insertion-ordered association list. -/
def lookupDict {α : Type} : List (String × α) → String → Option α
  | [], _ => Option.none
  | (k', v) :: rest, k => if k' = k then Option.some v else lookupDict rest k

/-- Python-dict insertion `d[k] = v`: update the value in place when the
key exists, otherwise append the new pair. -/
def dictInsert {α : Type} : List (String × α) → String → α → List (String × α)
  | [], k, v => [(k, v)]
  | (k', v') :: rest, k, v =>
      if k' = k then (k, v) :: rest else (k', v') :: dictInsert rest k v

/-- The argument vector built by `get_logs_json` (async_core.py lines
389-400): "log --json", the optional group filter, and — when a subset of
task ids is requested — the ids themselves are passed to the binary. -/
def get_logs_json_args (task_ids : Option (List Int)) (group : Option String) :
    List String :=
  let args := ["log", "--json"] ++
    (if optTruthy group then ["--group", group.getD ""] else [])
  match task_ids with
  | Option.some ids => args ++ ids.map toString
  | Option.none => args

/-- The client-side filtering step of `get_logs_json` (async_core.py lines
405-417): a dict comprehension over the requested id strings, keeping
those present in the parsed response. -/
def get_logs_json_filter {α : Type} (task_id_strs : List String)
    (log_data : List (String × α)) : List (String × α) :=
  task_id_strs.foldl
    (fun acc task_id =>
      match lookupDict log_data task_id with
      | Option.some v => dictInsert acc task_id v
      | Option.none => acc) []

/-- C5 counterexample: for the request `task_ids=[1]` the claim says the
full JSON object is fetched (argument vector ["log", "--json"]); the code
instead passes the id to the binary. -/
theorem C5_counterexample :
    get_logs_json_args (Option.some [1]) Option.none = ["log", "--json", "1"] ∧
      (["log", "--json", "1"] : List String) ≠ ["log", "--json"] := by
  exact ⟨rfl, by decide⟩

/-- `lookupDict` after `dictInsert`: the inserted key maps to the new
value, all other keys are unaffected. -/
theorem lookupDict_dictInsert {α : Type} (d : List (String × α)) (k k' : String)
    (v : α) :
    lookupDict (dictInsert d k v) k' =
      if k = k' then Option.some v else lookupDict d k' := by
  induction d with
  | nil => simp [dictInsert, lookupDict]
  | cons hd tl ih =>
    obtain ⟨k0, v0⟩ := hd
    simp only [dictInsert]
    by_cases h0 : k0 = k
    · subst h0
      by_cases h1 : k0 = k'
      · simp [lookupDict, h1]
      · simp [lookupDict, h1]
    · simp only [if_neg h0]
      by_cases h1 : k0 = k'
      · have hkk' : ¬k = k' := fun h => h0 (h1.trans h.symm)
        simp [lookupDict, h1, hkk']
      · simp [lookupDict, h1, ih]

/-- The foldl invariant of `get_logs_json_filter`. -/
theorem get_logs_json_filter_lookup_aux {α : Type} (d : List (String × α))
    (ids : List String) (acc : List (String × α)) (k : String) :
    lookupDict
      (ids.foldl
        (fun acc task_id =>
          match lookupDict d task_id with
          | Option.some v => dictInsert acc task_id v
          | Option.none => acc) acc) k =
      if k ∈ ids ∧ (lookupDict d k).isSome then lookupDict d k
      else lookupDict acc k := by
  induction ids generalizing acc with
  | nil => simp
  | cons hd tl ih =>
    simp only [List.foldl_cons]
    rcases hlk : lookupDict d hd with _ | v
    · rw [ih]
      by_cases hk : k = hd
      · subst hk
        simp [hlk]
      · simp [hk]
    · rw [ih]
      by_cases hk : k = hd
      · subst hk
        rw [lookupDict_dictInsert]
        by_cases htl : k ∈ tl <;> simp [htl, hlk]
      · have hdk : ¬hd = k := fun h => hk h.symm
        rw [lookupDict_dictInsert, if_neg hdk]
        simp [hk]

/-- C5 (amended): when a subset of task ids is requested, `get_logs_json`
passes the ids to the binary (no full fetch: the argument vector is the
all-tasks vector extended with the ids) and then additionally filters the
parsed response client-side by id membership: the returned dict maps
exactly the requested ids that are present in the response to their
entries, so the binary's own per-id filtering is not the sole filter. -/
theorem C5_subset_args_and_client_filter {α : Type} (ids : List Int)
    (group : Option String) (log_data : List (String × α)) (k : String) :
    get_logs_json_args (Option.some ids) group =
      get_logs_json_args Option.none group ++ ids.map toString ∧
    lookupDict (get_logs_json_filter (ids.map toString) log_data) k =
      (if k ∈ ids.map toString ∧ (lookupDict log_data k).isSome then
        lookupDict log_data k
      else Option.none) := by
  constructor
  · rfl
  · rw [get_logs_json_filter, get_logs_json_filter_lookup_aux]
    simp [lookupDict]

/-- Insert into a sorted list (ascending), used to model Python's
`sorted`. -/
def insertSorted (x : ℚ) : List ℚ → List ℚ
  | [] => [x]
  | y :: ys => if x ≤ y then x :: y :: ys else y :: insertSorted x ys

/-- Python's `sorted(...)` on rationals: ascending insertion sort (the
model only relies on it computing the ascending reordering, as any
correct sort does). -/
def pySorted (l : List ℚ) : List ℚ := l.foldr insertSorted []

theorem insertSorted_length (x : ℚ) (l : List ℚ) :
    (insertSorted x l).length = l.length + 1 := by
  induction l with
  | nil => rfl
  | cons y ys ih =>
    rw [insertSorted]
    split_ifs <;> simp [ih]

theorem pySorted_length (l : List ℚ) : (pySorted l).length = l.length := by
  induction l with
  | nil => rfl
  | cons y ys ih =>
    simp [pySorted, List.foldr_cons, insertSorted_length] at *
    omega

/-- Python's `int(...)` applied to a nonnegative float value: truncation,
which for nonnegative arguments is the floor, computed from the rational's
numerator and denominator. -/
def pyIntOfNonneg (q : ℚ) : Nat := q.num.toNat / q.den

theorem pyIntOfNonneg_le (q : ℚ) (hq : 0 ≤ q) : (pyIntOfNonneg q : ℚ) ≤ q := by
  have hden : (0 : ℚ) < (q.den : ℚ) := by exact_mod_cast q.den_pos
  have hnum : (0 : ℤ) ≤ q.num := Rat.num_nonneg.mpr hq
  rw [pyIntOfNonneg]
  conv_rhs => rw [← Rat.num_div_den q]
  rw [le_div_iff₀ hden]
  have h1 : q.num.toNat / q.den * q.den ≤ q.num.toNat := Nat.div_mul_le_self _ _
  have h2 : ((q.num.toNat : ℚ)) = (q.num : ℚ) := by
    exact_mod_cast congrArg (fun z : ℤ => (z : ℚ)) (Int.toNat_of_nonneg hnum)
  calc ((q.num.toNat / q.den : Nat) : ℚ) * (q.den : ℚ)
      = ((q.num.toNat / q.den * q.den : Nat) : ℚ) := by push_cast; ring
    _ ≤ ((q.num.toNat : Nat) : ℚ) := by exact_mod_cast h1
    _ = (q.num : ℚ) := h2

theorem lt_pyIntOfNonneg_add_one (q : ℚ) (hq : 0 ≤ q) :
    q < pyIntOfNonneg q + 1 := by
  have hden : (0 : ℚ) < (q.den : ℚ) := by exact_mod_cast q.den_pos
  have hnum : (0 : ℤ) ≤ q.num := Rat.num_nonneg.mpr hq
  rw [pyIntOfNonneg]
  conv_lhs => rw [← Rat.num_div_den q]
  rw [div_lt_iff₀ hden]
  have h1 : q.num.toNat < (q.num.toNat / q.den + 1) * q.den := by
    have hdm := Nat.div_add_mod q.num.toNat q.den
    have hm : q.num.toNat % q.den < q.den := Nat.mod_lt _ q.den_pos
    calc q.num.toNat = q.den * (q.num.toNat / q.den) + q.num.toNat % q.den :=
          hdm.symm
      _ < q.den * (q.num.toNat / q.den) + q.den := by omega
      _ = (q.num.toNat / q.den + 1) * q.den := by ring
  have h2 : ((q.num.toNat : ℚ)) = (q.num : ℚ) := by
    exact_mod_cast congrArg (fun z : ℤ => (z : ℚ)) (Int.toNat_of_nonneg hnum)
  calc (q.num : ℚ) = ((q.num.toNat : Nat) : ℚ) := h2.symm
    _ < (((q.num.toNat / q.den + 1) * q.den : Nat) : ℚ) := by exact_mod_cast h1
    _ = ((q.num.toNat / q.den : Nat) + 1) * (q.den : ℚ) := by push_cast; ring

/-- The `duration_percentiles` dict built by `get_group_time_statistics`
(statistics.py lines 140-148): nearest-rank indexing
`sorted_durations[int(n * p)]` for p in {0.25, 0.5, 0.75, 0.95}, with the
locals `sorted_durations` and `n` inlined. -/
def duration_percentiles (durations : List ℚ) : List (String × ℚ) :=
  [("25%", if (pySorted durations).length > 0 then
      (pySorted durations).getD
        (pyIntOfNonneg (((pySorted durations).length : ℚ) * (25 / 100))) 0
    else 0),
   ("50%", if (pySorted durations).length > 0 then
      (pySorted durations).getD
        (pyIntOfNonneg (((pySorted durations).length : ℚ) * (50 / 100))) 0
    else 0),
   ("75%", if (pySorted durations).length > 0 then
      (pySorted durations).getD
        (pyIntOfNonneg (((pySorted durations).length : ℚ) * (75 / 100))) 0
    else 0),
   ("95%", if (pySorted durations).length > 0 then
      (pySorted durations).getD
        (pyIntOfNonneg (((pySorted durations).length : ℚ) * (95 / 100))) 0
    else 0)]

/-- Modelled from the spec: the nearest-rank percentile — index
`floor(p * n)` into the sorted sample, clamped to the valid range, with no
interpolation. -/
def nearestRankPercentile (durations : List ℚ) (p : ℚ) : ℚ :=
  (pySorted durations).getD
    (min (pyIntOfNonneg (p * durations.length)) (durations.length - 1)) 0

/-- C4: the 25/50/75/95 duration percentiles are computed by nearest-rank
indexing at `floor(p * n)` into the sorted sample (never out of range, so
the clamp of the spec formula is inactive), not by interpolation: on
[1..10] the 50th percentile is the element at 0-indexed position 5, the
value 6 — not 5.5. -/
theorem C4_percentiles_nearest_rank :
    (∀ ds : List ℚ, ds ≠ [] →
      duration_percentiles ds =
        [("25%", nearestRankPercentile ds (25 / 100)),
         ("50%", nearestRankPercentile ds (50 / 100)),
         ("75%", nearestRankPercentile ds (75 / 100)),
         ("95%", nearestRankPercentile ds (95 / 100))]) ∧
    lookupDict (duration_percentiles [1, 2, 3, 4, 5, 6, 7, 8, 9, 10]) "50%" =
      Option.some 6 ∧
    (6 : ℚ) ≠ 11 / 2 := by
  refine ⟨?_, ?_, by norm_num⟩
  case refine_2 =>
    norm_num [duration_percentiles, pySorted, insertSorted, pyIntOfNonneg,
      lookupDict, List.getD]
    decide
  intro ds hds
  have hn : 0 < ds.length := List.length_pos.mpr hds
  have hn' : (0 : ℚ) < (ds.length : ℚ) := by exact_mod_cast hn
  have hidx : ∀ p : ℚ, 0 ≤ p → p < 1 →
      pyIntOfNonneg ((ds.length : ℚ) * p) =
        min (pyIntOfNonneg (p * (ds.length : ℚ))) (ds.length - 1) := by
    intro p hp0 hp1
    rw [mul_comm]
    have hle : (pyIntOfNonneg (p * (ds.length : ℚ)) : ℚ) ≤ p * ds.length :=
      pyIntOfNonneg_le _ (by positivity)
    have hlt : (p * (ds.length : ℚ)) < ds.length := by nlinarith
    have hidxlt : pyIntOfNonneg (p * (ds.length : ℚ)) < ds.length := by
      exact_mod_cast hle.trans_lt hlt
    omega
  unfold duration_percentiles nearestRankPercentile
  rw [pySorted_length]
  rw [if_pos hn, if_pos hn, if_pos hn, if_pos hn]
  rw [hidx (25 / 100) (by norm_num) (by norm_num),
    hidx (50 / 100) (by norm_num) (by norm_num),
    hidx (75 / 100) (by norm_num) (by norm_num),
    hidx (95 / 100) (by norm_num) (by norm_num)]

/-- Witness for C4 at the pinned sample [1..10]. -/
theorem C4_witness :
    duration_percentiles [1, 2, 3, 4, 5, 6, 7, 8, 9, 10] =
      [("25%", nearestRankPercentile [1, 2, 3, 4, 5, 6, 7, 8, 9, 10] (25 / 100)),
       ("50%", nearestRankPercentile [1, 2, 3, 4, 5, 6, 7, 8, 9, 10] (50 / 100)),
       ("75%", nearestRankPercentile [1, 2, 3, 4, 5, 6, 7, 8, 9, 10] (75 / 100)),
       ("95%", nearestRankPercentile [1, 2, 3, 4, 5, 6, 7, 8, 9, 10] (95 / 100))] :=
  C4_percentiles_nearest_rank.1 _ (by decide)

/-- Round a rational to the nearest integer, ties to even: the rounding
Python string formatting applies (the float values appearing here being
exactly represented by the model's rationals). -/
def roundTiesEven (q : ℚ) : ℤ :=
  if q - ⌊q⌋ < 1 / 2 then ⌊q⌋
  else if q - ⌊q⌋ > 1 / 2 then ⌊q⌋ + 1
  else if ⌊q⌋ % 2 = 0 then ⌊q⌋ else ⌊q⌋ + 1

/-- Python `f"{x:.1f}"` for the nonnegative values formatted here: one
decimal digit, ties to even. -/
def format1f (q : ℚ) : String :=
  toString ((roundTiesEven (q * 10)).toNat / 10) ++ "." ++
    toString ((roundTiesEven (q * 10)).toNat % 10)

/-- The bucket label of `_create_duration_buckets` (statistics.py lines
199-205): seconds, minutes or hours depending on the bucket size. -/
def bucketLabel (bucket_start bucket_end bucket_size : ℚ) : String :=
  if bucket_size < 60 then
    format1f bucket_start ++ "s-" ++ format1f bucket_end ++ "s"
  else if bucket_size < 3600 then
    format1f (bucket_start / 60) ++ "m-" ++ format1f (bucket_end / 60) ++ "m"
  else
    format1f (bucket_start / 3600) ++ "h-" ++ format1f (bucket_end / 3600) ++ "h"

/-- Python `min(durations)` (0 for the empty list, unreachable in the
code, which returns early on empty input). -/
def durations_min : List ℚ → ℚ
  | [] => 0
  | d :: rest => rest.foldl min d

/-- Python `max(durations)`. -/
def durations_max : List ℚ → ℚ
  | [] => 0
  | d :: rest => rest.foldl max d

/-- `bucket_size = (max_dur - min_dur) / 8 if max_dur > min_dur else 1`
(statistics.py line 187). -/
def bucket_size_of (ds : List ℚ) : ℚ :=
  if durations_max ds > durations_min ds then
    (durations_max ds - durations_min ds) / 8
  else 1

/-- Membership of duration `d` in bucket `i` (statistics.py lines
190-197): the last bucket (i = 7) is closed on both ends, the others are
half-open. -/
def inBucket (i : Nat) (min_dur bucket_size d : ℚ) : Bool :=
  if i = 7 then
    decide (min_dur + i * bucket_size ≤ d) &&
      decide (d ≤ min_dur + (i + 1) * bucket_size)
  else
    decide (min_dur + i * bucket_size ≤ d) &&
      decide (d < min_dur + (i + 1) * bucket_size)

/-- `_create_duration_buckets` (statistics.py lines 170-209): for each of
the 8 buckets, count the durations it contains and store the count in a
dict keyed by the formatted bucket label (a later bucket with an equal
label overwrites the earlier entry, as in a Python dict). -/
def create_duration_buckets (durations : List ℚ) : List (String × Nat) :=
  match durations with
  | [] => []
  | _ :: _ =>
    (List.range 8).foldl
      (fun (buckets : List (String × Nat)) (i : Nat) =>
        dictInsert buckets
          (bucketLabel
            (durations_min durations + (i : ℚ) * bucket_size_of durations)
            (durations_min durations + ((i : ℚ) + 1) * bucket_size_of durations)
            (bucket_size_of durations))
          (durations.countP
            (inBucket i (durations_min durations) (bucket_size_of durations))))
      []

/-- The eight per-bucket counts of `_create_duration_buckets`, before the
label-keyed dict insertion. -/
def raw_bucket_counts (durations : List ℚ) : List Nat :=
  (List.range 8).map
    (fun i => durations.countP
      (inBucket i (durations_min durations) (bucket_size_of durations)))

theorem sum_map_add {α : Type} (l : List α) (f g : α → Nat) :
    (l.map (fun x => f x + g x)).sum = (l.map f).sum + (l.map g).sum := by
  induction l with
  | nil => rfl
  | cons x xs ih => simp [ih]; omega

theorem sum_map_ite_countP {α : Type} (l : List α) (p : α → Bool) :
    (l.map (fun x => if p x then 1 else 0)).sum = l.countP p := by
  induction l with
  | nil => rfl
  | cons x xs ih =>
    rw [List.map_cons, List.sum_cons, List.countP_cons, ih]
    by_cases h : p x
    · simp [h]
      omega
    · simp [h]

theorem sum_map_one {α : Type} (l : List α) :
    (l.map (fun _ => 1)).sum = l.length := by
  induction l with
  | nil => rfl
  | cons x xs ih =>
    simp [ih]
    omega

/-- Double counting: summing per-bucket counts over the buckets equals
summing per-duration bucket multiplicities over the durations. -/
theorem double_count {α : Type} (is : List Nat) (ds : List α)
    (p : Nat → α → Bool) :
    (is.map (fun i => ds.countP (p i))).sum =
      (ds.map (fun d => is.countP (fun i => p i d))).sum := by
  induction ds with
  | nil => simp
  | cons d ds ih =>
    simp only [List.countP_cons]
    rw [show (fun i => ds.countP (p i) + if p i d then 1 else 0) =
        (fun i => ds.countP (p i) + (if p i d then 1 else 0)) from rfl,
      sum_map_add is (fun i => ds.countP (p i)) (fun i => if p i d then 1 else 0),
      ih, sum_map_ite_countP]
    simp [List.map_cons, List.sum_cons]
    omega

theorem countP_range_eq_one (n : Nat) (p : Nat → Bool) (i : Nat) (hi : i < n)
    (hp : p i = true) (huniq : ∀ j, j < n → p j = true → j = i) :
    (List.range n).countP p = 1 := by
  induction n with
  | zero => omega
  | succ n ih =>
    rw [List.range_succ, List.countP_append]
    rcases Nat.lt_or_ge i n with hin | hin
    · have hpn : p n = false := by
        by_contra hcon
        have hpn' : p n = true := by
          cases hval : p n with
          | true => rfl
          | false => exact absurd hval hcon
        have := huniq n (Nat.lt_succ_self n) hpn'
        omega
      rw [ih hin (fun j hj hpj => huniq j (Nat.lt_succ_of_lt hj) hpj)]
      simp [List.countP_cons, hpn]
    · have hii : i = n := by omega
      subst hii
      have h0 : (List.range i).countP p = 0 := by
        rw [List.countP_eq_zero]
        intro j hj hpj
        have hj' : j < i := List.mem_range.mp hj
        have := huniq j (by omega) hpj
        omega
      simp [h0, List.countP_cons, hp]

theorem le_pyIntOfNonneg (j : Nat) (x : ℚ) (hx : 0 ≤ x) (h : (j : ℚ) ≤ x) :
    j ≤ pyIntOfNonneg x := by
  by_contra hcon
  have h1 : pyIntOfNonneg x + 1 ≤ j := by omega
  have h2 : ((pyIntOfNonneg x : ℚ)) + 1 ≤ (j : ℚ) := by exact_mod_cast h1
  have h3 := lt_pyIntOfNonneg_add_one x hx
  linarith

theorem foldl_min_le_init (l : List ℚ) (a : ℚ) : l.foldl min a ≤ a := by
  induction l generalizing a with
  | nil => simp
  | cons x xs ih =>
    simp only [List.foldl_cons]
    exact le_trans (ih (min a x)) (min_le_left a x)

theorem foldl_min_le_mem (l : List ℚ) :
    ∀ (a x : ℚ), x ∈ l → l.foldl min a ≤ x := by
  induction l with
  | nil =>
    intro a x hx
    cases hx
  | cons y ys ih =>
    intro a x hx
    simp only [List.foldl_cons]
    rcases List.mem_cons.mp hx with hxy | hxy
    · subst hxy
      exact le_trans (foldl_min_le_init ys (min a x)) (min_le_right a x)
    · exact ih (min a y) x hxy

theorem init_le_foldl_max (l : List ℚ) (a : ℚ) : a ≤ l.foldl max a := by
  induction l generalizing a with
  | nil => simp
  | cons x xs ih =>
    simp only [List.foldl_cons]
    exact le_trans (le_max_left a x) (ih (max a x))

theorem mem_le_foldl_max (l : List ℚ) :
    ∀ (a x : ℚ), x ∈ l → x ≤ l.foldl max a := by
  induction l with
  | nil =>
    intro a x hx
    cases hx
  | cons y ys ih =>
    intro a x hx
    simp only [List.foldl_cons]
    rcases List.mem_cons.mp hx with hxy | hxy
    · subst hxy
      exact le_trans (le_max_right a x) (init_le_foldl_max ys (max a x))
    · exact ih (max a y) x hxy

theorem durations_min_le_mem (ds : List ℚ) (d : ℚ) (hd : d ∈ ds) :
    durations_min ds ≤ d := by
  cases ds with
  | nil => cases hd
  | cons d0 rest =>
    rcases List.mem_cons.mp hd with hdd | hdd
    · subst hdd
      exact foldl_min_le_init rest d
    · exact foldl_min_le_mem rest d0 d hdd

theorem mem_le_durations_max (ds : List ℚ) (d : ℚ) (hd : d ∈ ds) :
    d ≤ durations_max ds := by
  cases ds with
  | nil => cases hd
  | cons d0 rest =>
    rcases List.mem_cons.mp hd with hdd | hdd
    · subst hdd
      exact init_le_foldl_max rest d
    · exact mem_le_foldl_max rest d0 d hdd

/-- Every duration between `min_dur` and `min_dur + 8 * bucket_size` lies
in exactly one of the 8 buckets. -/
theorem inBucket_exists_unique (m s d : ℚ) (hs : 0 < s) (hd1 : m ≤ d)
    (hd2 : d ≤ m + 8 * s) :
    ∃ i, i < 8 ∧ inBucket i m s d = true ∧
      (∀ j, j < 8 → inBucket j m s d = true → j = i) := by
  have hcond : ∀ j : Nat, (m + (j : ℚ) * s ≤ d ↔ (j : ℚ) ≤ (d - m) / s) := by
    intro j
    rw [le_div_iff₀ hs]
    constructor <;> intro hj <;> linarith
  have hcond2 : ∀ j : Nat,
      (d < m + ((j : ℚ) + 1) * s ↔ (d - m) / s < (j : ℚ) + 1) := by
    intro j
    rw [div_lt_iff₀ hs]
    constructor <;> intro hj <;> linarith
  have hx0 : 0 ≤ (d - m) / s := div_nonneg (by linarith) hs.le
  by_cases hdm : d = m + 8 * s
  · refine ⟨7, by omega, ?_, ?_⟩
    · rw [inBucket, if_pos rfl]
      simp only [Bool.and_eq_true, decide_eq_true_eq]
      constructor
      · push_cast
        nlinarith
      · push_cast
        linarith
    · intro j hj hbj
      by_contra hne
      have hj7 : j < 7 := by omega
      rw [inBucket, if_neg (by omega)] at hbj
      simp only [Bool.and_eq_true, decide_eq_true_eq] at hbj
      have hjc : ((j : ℚ)) + 1 ≤ 7 := by
        have : j + 1 ≤ 7 := by omega
        exact_mod_cast this
      nlinarith [hbj.2]
  · have hdlt : d < m + 8 * s := lt_of_le_of_ne hd2 hdm
    have hxlt : (d - m) / s < 8 := by
      rw [div_lt_iff₀ hs]
      linarith
    have hile : ((pyIntOfNonneg ((d - m) / s) : ℚ)) ≤ (d - m) / s :=
      pyIntOfNonneg_le _ hx0
    have hilt : (d - m) / s < (pyIntOfNonneg ((d - m) / s) : ℚ) + 1 :=
      lt_pyIntOfNonneg_add_one _ hx0
    have hi8 : pyIntOfNonneg ((d - m) / s) < 8 := by
      have : ((pyIntOfNonneg ((d - m) / s) : ℚ)) < 8 := lt_of_le_of_lt hile hxlt
      exact_mod_cast this
    refine ⟨pyIntOfNonneg ((d - m) / s), hi8, ?_, ?_⟩
    · rw [inBucket]
      by_cases hi7 : pyIntOfNonneg ((d - m) / s) = 7
      · rw [if_pos hi7]
        simp only [Bool.and_eq_true, decide_eq_true_eq]
        refine ⟨(hcond _).mpr hile, ?_⟩
        have hic : ((pyIntOfNonneg ((d - m) / s) : ℚ)) = 7 := by
          exact_mod_cast hi7
        rw [hic]
        linarith
      · rw [if_neg hi7]
        simp only [Bool.and_eq_true, decide_eq_true_eq]
        exact ⟨(hcond _).mpr hile, (hcond2 _).mpr hilt⟩
    · intro j hj hbj
      rw [inBucket] at hbj
      by_cases hj7 : j = 7
      · subst hj7
        rw [if_pos rfl] at hbj
        simp only [Bool.and_eq_true, decide_eq_true_eq] at hbj
        have h7x : ((7 : Nat) : ℚ) ≤ (d - m) / s := (hcond 7).mp (by push_cast; push_cast at hbj; linarith [hbj.1])
        have h7i : 7 ≤ pyIntOfNonneg ((d - m) / s) :=
          le_pyIntOfNonneg 7 _ hx0 (by exact_mod_cast h7x)
        omega
      · rw [if_neg hj7] at hbj
        simp only [Bool.and_eq_true, decide_eq_true_eq] at hbj
        have hjle : (j : ℚ) ≤ (d - m) / s := (hcond j).mp hbj.1
        have hjlt : (d - m) / s < (j : ℚ) + 1 := (hcond2 j).mp hbj.2
        have h1 : j ≤ pyIntOfNonneg ((d - m) / s) :=
          le_pyIntOfNonneg j _ hx0 hjle
        have h2 : pyIntOfNonneg ((d - m) / s) ≤ j := by
          have hq : ((pyIntOfNonneg ((d - m) / s) : ℚ)) < (j : ℚ) + 1 :=
            lt_of_le_of_lt hile hjlt
          have : pyIntOfNonneg ((d - m) / s) < j + 1 := by exact_mod_cast hq
          omega
        omega

/-- C3 (amended): for every nonempty duration sample, the eight raw
per-bucket counts of `_create_duration_buckets` sum exactly to the number
of input durations — no duration is double-counted or dropped at bucket
boundaries, and the maximum falls in the last, both-ends-closed bucket.
(The dict the function returns can still merge buckets whose formatted
labels collide, so the dict values may sum to less; see the
counterexample.) -/
theorem C3_raw_counts_sum (ds : List ℚ) (_h : ds ≠ []) :
    (raw_bucket_counts ds).sum = ds.length := by
  rw [raw_bucket_counts,
    double_count (List.range 8) ds
      (fun i => inBucket i (durations_min ds) (bucket_size_of ds))]
  have hone : ∀ d ∈ ds, ((List.range 8).countP
      (fun i => inBucket i (durations_min ds) (bucket_size_of ds) d)) = 1 := by
    intro d hd
    have hmin : durations_min ds ≤ d := durations_min_le_mem ds d hd
    have hmax : d ≤ durations_max ds := mem_le_durations_max ds d hd
    have hkey : 0 < bucket_size_of ds ∧
        d ≤ durations_min ds + 8 * bucket_size_of ds := by
      rw [bucket_size_of]
      by_cases hMm : durations_max ds > durations_min ds
      · rw [if_pos hMm]
        constructor
        · exact div_pos (by linarith) (by norm_num)
        · have h8 : durations_min ds +
              8 * ((durations_max ds - durations_min ds) / 8) =
              durations_max ds := by ring
          linarith
      · rw [if_neg hMm]
        push_neg at hMm
        exact ⟨by norm_num, by linarith⟩
    obtain ⟨i, hi8, hib, huniq⟩ :=
      inBucket_exists_unique (durations_min ds) (bucket_size_of ds) d
        hkey.1 hmin hkey.2
    exact countP_range_eq_one 8 _ i hi8 hib huniq
  calc (ds.map (fun d => (List.range 8).countP
        (fun i => inBucket i (durations_min ds) (bucket_size_of ds) d))).sum
      = (ds.map (fun _ => 1)).sum := congrArg List.sum (List.map_congr_left hone)
    _ = ds.length := sum_map_one ds

/-- Witness for C3 at a concrete sample. -/
theorem C3_witness :
    (raw_bucket_counts [(1 : ℚ), 2, 3]).sum = [(1 : ℚ), 2, 3].length :=
  C3_raw_counts_sum [(1 : ℚ), 2, 3] (by decide)

/-- C3 counterexample: for the sample [0, 0.16] the bucket size is 0.02
and several buckets share the formatted label (e.g. "0.0s-0.0s"), so a
later empty bucket overwrites the first bucket's count in the returned
dict: its values sum to 1, not to the sample size 2. -/
theorem C3_counterexample :
    ((create_duration_buckets [(0 : ℚ), 4 / 25]).map Prod.snd).sum = 1 ∧
      ([(0 : ℚ), 4 / 25].length = 2) := by
  constructor
  · have hmin : durations_min [(0 : ℚ), 4 / 25] = 0 := by
      norm_num [durations_min, min_def]
    have hmax : durations_max [(0 : ℚ), 4 / 25] = 4 / 25 := by
      norm_num [durations_max, max_def]
    have hsize : bucket_size_of [(0 : ℚ), 4 / 25] = 1 / 50 := by
      rw [bucket_size_of, hmin, hmax]
      norm_num
    have hts0 : toString (0 : Nat) = "0" := rfl
    have hts1 : toString (1 : Nat) = "1" := rfl
    have hts2 : toString (2 : Nat) = "2" := rfl
    have hrange : List.range 8 = [0, 1, 2, 3, 4, 5, 6, 7] := rfl
    have hfr0 : Int.fract ((0 : ℚ)) = 0 := by rw [Int.fract]; norm_num
    have hfr1 : Int.fract ((1 : ℚ) / 5) = 1 / 5 := by rw [Int.fract]; norm_num
    have hfr2 : Int.fract ((2 : ℚ) / 5) = 2 / 5 := by rw [Int.fract]; norm_num
    have hfr3 : Int.fract ((3 : ℚ) / 5) = 3 / 5 := by rw [Int.fract]; norm_num
    have hfr4 : Int.fract ((4 : ℚ) / 5) = 4 / 5 := by rw [Int.fract]; norm_num
    have hfr5 : Int.fract ((1 : ℚ)) = 0 := by rw [Int.fract]; norm_num
    have hfr6 : Int.fract ((6 : ℚ) / 5) = 1 / 5 := by rw [Int.fract]; norm_num
    have hfr7 : Int.fract ((7 : ℚ) / 5) = 2 / 5 := by rw [Int.fract]; norm_num
    have hfr8 : Int.fract ((8 : ℚ) / 5) = 3 / 5 := by rw [Int.fract]; norm_num
    have hti2 : Int.toNat 2 = 2 := rfl
    norm_num [create_duration_buckets, hrange, hmin, hsize, bucketLabel,
      format1f, roundTiesEven, inBucket, dictInsert, List.countP_cons,
      List.countP_nil, hts0, hts1, hts2, Bool.and_eq_true, decide_eq_true_eq,
      hfr0, hfr1, hfr2, hfr3, hfr4, hfr5, hfr6, hfr7, hfr8, hti2]
    decide
  · rfl

/-- A JSON value, as fed to the pydantic decoders. -/
inductive Json where
  | null
  | str (s : String)
  | num (n : Int)
  | obj (fields : List (String × Json))

/-- `TaskStatusInfo` from `src/pueue_wrapper/models/base.py` (lines
11-29): all four fields are independently optional; no validator relates
them.  Datetimes are kept as their accepted raw representation; `result`
is `Optional[Any]` and stores the raw JSON value.  The Python field `end`
is `end_` here (`end` is a Lean keyword). -/
structure TaskStatusInfo where
  enqueued_at : Option String := Option.none
  start : Option String := Option.none
  end_ : Option String := Option.none
  result : Option Json := Option.none

/-- Pydantic validation of one `Optional[datetime]` field: absent or null
gives None; a string or number parses (parse details abstracted); other
shapes are rejected. -/
def decodeDatetimeField : Option Json → Option (Option String)
  | Option.none => Option.some Option.none
  | Option.some Json.null => Option.some Option.none
  | Option.some (Json.str s) => Option.some (Option.some s)
  | Option.some (Json.num n) => Option.some (Option.some (toString n))
  | Option.some _ => Option.none

/-- The decoder for `TaskStatusInfo`, including the `model_validator`
that copies `enqueue_at` to `enqueued_at` when only the former is present
(base.py lines 21-29). -/
def validateTaskStatusInfo (j : Json) : Option TaskStatusInfo :=
  match j with
  | Json.obj fields =>
    let fields :=
      if (lookupDict fields "enqueued_at").isNone then
        match lookupDict fields "enqueue_at" with
        | Option.some v => fields ++ [("enqueued_at", v)]
        | Option.none => fields
      else fields
    match decodeDatetimeField (lookupDict fields "enqueued_at"),
        decodeDatetimeField (lookupDict fields "start"),
        decodeDatetimeField (lookupDict fields "end") with
    | Option.some ea, Option.some st, Option.some en =>
        Option.some
          { enqueued_at := ea, start := st, end_ := en,
            result :=
              match lookupDict fields "result" with
              | Option.some Json.null => Option.none
              | Option.some v => Option.some v
              | Option.none => Option.none }
    | _, _, _ => Option.none
  | _ => Option.none

/-- The decoder of the `status` field of `Task` (status.py lines 20-22):
a plain `Dict[str, TaskStatusInfo]`, so every key is accepted as a status
tag and each payload is validated as a `TaskStatusInfo`. -/
def validateStatusMap (j : Json) : Option (List (String × TaskStatusInfo)) :=
  match j with
  | Json.obj fields =>
    fields.foldr
      (fun kv acc =>
        match validateTaskStatusInfo kv.2, acc with
        | Option.some info, Option.some rest =>
            Option.some ((kv.1, info) :: rest)
        | _, _ => Option.none)
      (Option.some [])
  | _ => Option.none

/-- C9 counterexample: the status decoder accepts a payload with a
non-null `end` and a null `start`, and a non-null `result` under the tag
"Running" (not "Done") — the claimed invariants are not enforced by the
decoder. -/
theorem C9_counterexample :
    validateStatusMap
        (Json.obj [("Running", Json.obj
          [("end", Json.str "2025-01-01T00:00:00"),
           ("result", Json.num 0)])]) =
      Option.some [("Running",
        { enqueued_at := Option.none, start := Option.none,
          end_ := Option.some "2025-01-01T00:00:00",
          result := Option.some (Json.num 0) })] ∧
    ("Running" : String) ≠ "Done" := by
  exact ⟨rfl, by decide⟩

/-- C9 (amended): the status decoder enforces no cross-field or tag
constraint: for every tag and every string values, it accepts a payload
with non-null `end`, null (absent) `start` and a non-null `result`,
decoding the fields independently. -/
theorem C9_decoder_enforces_no_invariant (tag e rs : String) :
    validateStatusMap
        (Json.obj [(tag, Json.obj
          [("end", Json.str e), ("result", Json.str rs)])]) =
      Option.some [(tag,
        { enqueued_at := Option.none, start := Option.none,
          end_ := Option.some e,
          result := Option.some (Json.str rs) })] := by
  rfl
